import Mathlib

/-!
Verification of the Sentinel SDK risk-oracle contract
(`src/blockchain/contracts/sentinel-sdk/src/{lib.rs, types.rs, crypto.rs}`).

Shallow embedding: the Soroban contract's pure parts become Lean functions;
`panic!` / host traps become `Except SdkError`; persistent storage becomes an
association list keyed by address; the host ledger clock is an explicit
`current_time : Nat` argument; the host Ed25519 primitive (which aborts the
whole call on an invalid signature) is an explicit boolean oracle parameter.
Machine integers `u32`/`u64` are modelled as `Nat` (the contract only
compares, subtracts under a guard, and renders them in decimal, so no
wraparound is reachable in the modelled domain).
-/

namespace Sentinel

/-- Ed25519 public key, `BytesN<32>` in the source (`types.rs`). -/
abbrev PublicKey := List Nat

/-- Ed25519 signature, `BytesN<64>` in the source (`types.rs`). -/
abbrev Signature := List Nat

/-- A Soroban `Address`, modelled by its canonical Stellar string form
(the value of `address.to_string()` in `crypto.rs`). -/
structure Address where
  str : String
deriving DecidableEq, Repr

/-- The `RiskDecision` from `types.rs`: `Allow`, `Limit(u32)`, `Freeze`. -/
inductive RiskDecision where
  | Allow : RiskDecision
  | Limit : Nat → RiskDecision
  | Freeze : RiskDecision
deriving DecidableEq, Repr

/-- The `RiskState` from `types.rs`. -/
structure RiskState where
  risk_score : Nat
  last_updated : Nat
  decision : RiskDecision
deriving DecidableEq, Repr

/-- The `RiskPayload` from `types.rs`. -/
structure RiskPayload where
  wallet : Address
  risk_score : Nat
  timestamp : Nat
deriving DecidableEq, Repr

/-- The panics the contract can raise (`lib.rs`, `crypto.rs`), as error
values: `NotInitialized` (missing oracle key), `AlreadyInitialized`
(second `initialize`), `InvalidSignature` (host `ed25519_verify` trap or
the explicit panic in `submit_risk`), `StalePayload`, `InvalidScore`. -/
inductive SdkError where
  | notInitialized : SdkError
  | alreadyInitialized : SdkError
  | invalidSignature : SdkError
  | stalePayload : SdkError
  | invalidScore : SdkError
deriving DecidableEq, Repr

/-! ## Canonical encoder (`crypto.rs`) -/

/-- The digit-accumulation loop shared by `append_u32_as_bytes` and
`append_u64_as_bytes` (`crypto.rs` lines 121-168): repeatedly take
`value % 10` and divide by 10, producing the decimal digits least
significant first (the source writes them into `digits[i]` in this
order before emitting them reversed). -/
def digitsRevLoop : Nat → List Nat
  | 0 => []
  | n + 1 => ((n + 1) % 10) :: digitsRevLoop ((n + 1) / 10)
decreasing_by exact Nat.div_lt_self (Nat.succ_pos n) (by norm_num)

/-- The `append_u32_as_bytes` (`crypto.rs`): value 0 renders as `"0"`;
otherwise digits are accumulated least-significant-first and emitted in
reverse (most significant first). Output bytes are ASCII digits, modelled
as a `String` of digit characters. The source's 10-cell buffer always
suffices because the input is a `u32`. -/
def append_u32_as_bytes (value : Nat) : String :=
  if value = 0 then "0"
  else String.mk (((digitsRevLoop value).map (fun d => Char.ofNat (48 + d))).reverse)

/-- The `append_u64_as_bytes` (`crypto.rs`): identical digit loop with a
20-cell buffer, always sufficient for a `u64`. -/
def append_u64_as_bytes (value : Nat) : String :=
  if value = 0 then "0"
  else String.mk (((digitsRevLoop value).map (fun d => Char.ofNat (48 + d))).reverse)

/-- The XDR serialization of a Soroban string as described in
`append_address_as_string` (`crypto.rs` lines 104-117): a 4-byte ScVal
type tag, a 4-byte big-endian length, the string content bytes, then
zero padding to a multiple of 4. Bytes are modelled as characters
(the address alphabet is ASCII). -/
def sorobanStringXdr (s : String) : List Char :=
  [Char.ofNat 0, Char.ofNat 0, Char.ofNat 0, Char.ofNat 14,
   Char.ofNat (s.data.length / 16777216 % 256), Char.ofNat (s.data.length / 65536 % 256),
   Char.ofNat (s.data.length / 256 % 256), Char.ofNat (s.data.length % 256)]
  ++ s.data ++ List.replicate ((4 - s.data.length % 4) % 4) (Char.ofNat 0)

/-- The `append_address_as_string` (`crypto.rs`): take the address's string
form, XDR-serialize it, skip the first 8 bytes (tag + length) and copy
`str_len` content bytes. -/
def append_address_as_string (address : Address) : String :=
  let addr_str := address.str
  let xdr_bytes := sorobanStringXdr addr_str
  String.mk ((List.range addr_str.data.length).filterMap (fun i => xdr_bytes.get? (8 + i)))

/-- The `serialize_canonical_json` (`crypto.rs` lines 64-93): the compact JSON
object with keys `risk_score`, `timestamp`, `wallet` in that order. -/
def serialize_canonical_json (payload : RiskPayload) : String :=
  "\x7b\"risk_score\":" ++ append_u32_as_bytes payload.risk_score
  ++ ",\"timestamp\":" ++ append_u64_as_bytes payload.timestamp
  ++ ",\"wallet\":\"" ++ append_address_as_string payload.wallet
  ++ "\"\x7d"

/-! ## Decision engine (`types.rs`) -/

/-- The `RiskState::calculate_decision` (`types.rs` lines 66-73):
`0..=49 => Allow`, `50..=79 => Limit(5000)`, `80..=100 => Freeze`,
anything else panics ("Invalid risk score"), modelled as `none`. -/
def calculate_decision (risk_score : Nat) : Option RiskDecision :=
  if risk_score ≤ 49 then some RiskDecision.Allow
  else if risk_score ≤ 79 then some (RiskDecision.Limit 5000)
  else if risk_score ≤ 100 then some RiskDecision.Freeze
  else none

/-- The `RiskState::from_payload` (`types.rs` lines 55-63): compute the
decision from the payload's score and copy score and timestamp. -/
def RiskState.from_payload (payload : RiskPayload) : Option RiskState :=
  (calculate_decision payload.risk_score).map
    (fun decision => { risk_score := payload.risk_score,
                       last_updated := payload.timestamp,
                       decision := decision })

/-! ## Contract state and storage -/

/-- The persistent per-identity storage scope, an association list keyed
by address (Soroban `env.storage().persistent()` keyed by `Address`). -/
abbrev RiskStore := List (Address × RiskState)

/-- Lookup in the per-identity scope (`storage.get(&wallet)`). -/
def storeGet : RiskStore → Address → Option RiskState
  | [], _ => none
  | (k, v) :: rest, a => if k = a then some v else storeGet rest a

/-- Overwrite-or-insert in the per-identity scope (`storage.set`). -/
def storeSet : RiskStore → Address → RiskState → RiskStore
  | [], a, v => [(a, v)]
  | (k, w) :: rest, a, v =>
      if k = a then (k, v) :: rest else (k, w) :: storeSet rest a v

/-- The contract's whole persistent state: the instance-scope slot holding
the oracle public key (`symbol_short!("oracle")`), and the per-identity
`RiskState` entries. -/
structure ContractState where
  oracle : Option PublicKey
  risk : RiskStore
deriving DecidableEq, Repr

/-- The host Ed25519 primitive `env.crypto().ed25519_verify`, abstracted
as a predicate on (public key, message bytes, signature): `true` means the
host accepts; `false` means the host traps (aborting the call). -/
abbrev HostVerify := PublicKey → String → Signature → Bool

/-! ## Contract entry points (`lib.rs`) -/

/-- The `get_oracle_pubkey` (`lib.rs` lines 223-228): read the instance-scope
`oracle` slot; `.expect(...)` panics with `NotInitialized` when absent. -/
def get_oracle_pubkey (st : ContractState) : Except SdkError PublicKey :=
  match st.oracle with
  | some pk => Except.ok pk
  | none => Except.error SdkError.notInitialized

/-- The `initialize` (`lib.rs` lines 75-91): panic with `AlreadyInitialized`
when the `oracle` slot is occupied, otherwise store the key. -/
def initContract (st : ContractState) (oracle_pubkey : PublicKey) :
    Except SdkError ContractState :=
  match st.oracle with
  | some _ => Except.error SdkError.alreadyInitialized
  | none => Except.ok { st with oracle := some oracle_pubkey }

/-- The `verify_signature` (`crypto.rs` lines 25-46): serialize the payload
canonically, call the host `ed25519_verify` (which traps on an invalid
signature, modelled as `Except.error`), and return `true` when it comes
back. The `DBG_MSG` event emission has no effect on state or outcome. -/
def verify_signature (host : HostVerify) (payload : RiskPayload)
    (signature : Signature) (public_key : PublicKey) : Except SdkError Bool :=
  let message := serialize_canonical_json payload
  if host public_key message signature then Except.ok true
  else Except.error SdkError.invalidSignature

/-- The `submit_risk` (`lib.rs` lines 106-162): get the oracle key, verify the
signature, check the 300-second replay window, validate the score, then
overwrite the wallet's `RiskState`. Event emissions (`RISK_UPD`,
`FROZEN`/`LIMITED`/`ALLOWED`) touch no contract state and are omitted. -/
def submit_risk (host : HostVerify) (current_time : Nat)
    (st : ContractState) (payload : RiskPayload) (signature : Signature) :
    Except SdkError ContractState :=
  match get_oracle_pubkey st with
  | Except.error e => Except.error e
  | Except.ok oracle_pubkey =>
    match verify_signature host payload signature oracle_pubkey with
    | Except.error e => Except.error e
    | Except.ok v =>
      if ¬ v then Except.error SdkError.invalidSignature
      else
        let max_age : Nat := 300
        if current_time > payload.timestamp ∧
            current_time - payload.timestamp > max_age then
          Except.error SdkError.stalePayload
        else if payload.risk_score > 100 then
          Except.error SdkError.invalidScore
        else
          match RiskState.from_payload payload with
          | some risk_state =>
              Except.ok { st with risk := storeSet st.risk payload.wallet risk_state }
          | none => Except.error SdkError.invalidScore

/-- The `get_risk` (`lib.rs` lines 175-177): pure persistent-scope lookup. -/
def get_risk (st : ContractState) (wallet : Address) : Option RiskState :=
  storeGet st.risk wallet

/-- The `check_permission` (`lib.rs` lines 192-197): stored decision, or
`Allow` for an unknown wallet. -/
def check_permission (st : ContractState) (wallet : Address) : RiskDecision :=
  match get_risk st wallet with
  | some risk_state => risk_state.decision
  | none => RiskDecision.Allow

/-- The `is_frozen` (`lib.rs` lines 207-212):
`matches!(check_permission(wallet), Freeze)`. -/
def is_frozen (st : ContractState) (wallet : Address) : Bool :=
  match check_permission st wallet with
  | RiskDecision.Freeze => true
  | _ => false

/-! ## Host transaction semantics

A Soroban contract call that panics aborts the whole transaction: the
host rolls every storage write back. The `_apply` forms give the state
observable after a call under that semantics. -/

/-- Post-state of an `initialize` call: the new state on success, the old
state unchanged when the call panics. -/
def initContract_apply (st : ContractState) (oracle_pubkey : PublicKey) :
    ContractState :=
  match initContract st oracle_pubkey with
  | Except.ok st' => st'
  | Except.error _ => st

/-- Post-state of a `submit_risk` call: the new state on success, the old
state unchanged when the call panics. -/
def submit_risk_apply (host : HostVerify) (current_time : Nat)
    (st : ContractState) (payload : RiskPayload) (signature : Signature) :
    ContractState :=
  match submit_risk host current_time st payload signature with
  | Except.ok st' => st'
  | Except.error _ => st

/-- States reachable from deployment (empty storage) through the two
mutating entry points, under any host verifier, clock, and inputs. The
read-only entry points mutate nothing. -/
inductive Reachable : ContractState → Prop where
  | deploy : Reachable { oracle := none, risk := [] }
  | step_init (st : ContractState) (pk : PublicKey) :
      Reachable st → Reachable (initContract_apply st pk)
  | step_submit (host : HostVerify) (current_time : Nat)
      (st : ContractState) (payload : RiskPayload) (signature : Signature) :
      Reachable st →
      Reachable (submit_risk_apply host current_time st payload signature)

/-! ## Specification-side notions

These definitions phrase the spec's vocabulary ("minimal decimal ASCII",
"decision severity") so claims can be stated; they are not part of the
embedded program. -/

/-- A character is an ASCII decimal digit (`0`-`9`). -/
def isDigitChar (c : Char) : Bool :=
  48 ≤ c.toNat && c.toNat ≤ 57

/-- The numeric value of a big-endian ASCII decimal digit list. -/
def decStringVal (l : List Char) : Nat :=
  l.foldl (fun acc c => 10 * acc + (c.toNat - 48)) 0

/-- Predicate stating `s` is the minimal decimal ASCII rendering of `n`: nonempty, digits
only (hence no sign and no whitespace), value `n`, the value 0 rendered
as the single character `0`, and no leading zero otherwise. -/
def MinimalDecimal (n : Nat) (s : String) : Prop :=
  s.data ≠ [] ∧
  (∀ c ∈ s.data, isDigitChar c = true) ∧
  decStringVal s.data = n ∧
  (n = 0 → s = "0") ∧
  (n ≠ 0 → s.data.head? ≠ some (Char.ofNat 48))

/-- Decision severity, for the spec's monotonicity statement:
`Allow < Limit _ < Freeze`. -/
def severity : RiskDecision → Nat
  | RiskDecision.Allow => 0
  | RiskDecision.Limit _ => 1
  | RiskDecision.Freeze => 2

/-! ## Concrete scenario values (used by witnesses and counterexamples) -/

/-- A concrete oracle public key. -/
def pkW : PublicKey := [7]

/-- A concrete signature value. -/
def sigW : Signature := [1]

/-- A host verifier that accepts every signature (models a call whose
signature check passes). -/
def hostAccept : HostVerify := fun _ _ _ => true

/-- A concrete wallet address. -/
def walletW : Address := { str := "GTESTWALLET" }

/-- A second, different concrete oracle public key. -/
def pkW2 : PublicKey := [9]

/-- The state right after deployment: nothing stored. -/
def stDeploy : ContractState := { oracle := none, risk := [] }

/-- An initialized state (oracle key `pkW` stored) with no risk entries. -/
def stInitOnly : ContractState := { oracle := some pkW, risk := [] }

/-- A concrete payload timestamped 699, which is 301 seconds old at
time 1000. -/
def payload699 : RiskPayload :=
  { wallet := walletW, risk_score := 10, timestamp := 699 }

/-- The `RiskState` written by `payloadW`: score 87, decision Freeze. -/
def rsW : RiskState :=
  { risk_score := 87, last_updated := 1737718800,
    decision := RiskDecision.Freeze }

/-- An initialized state holding a stored `RiskState` for `walletW` with
`last_updated = 1000` (written by a score-87 payload at time 1000). -/
def stWithEntry : ContractState :=
  { oracle := some pkW,
    risk := [(walletW, { risk_score := 87, last_updated := 1000,
                         decision := RiskDecision.Freeze })] }

/-- A concrete payload: score 10, timestamp 999 (older than the entry
stored in `stWithEntry` but inside the replay window at time 1000). -/
def payloadOld : RiskPayload :=
  { wallet := walletW, risk_score := 10, timestamp := 999 }

/-- A concrete payload for witnesses: score 87 at timestamp 1737718800
(the fixture used by the source's own tests). -/
def payloadW : RiskPayload :=
  { wallet := walletW, risk_score := 87, timestamp := 1737718800 }

/-- The reachable state used by the consistency witness: deploy,
initialize with `pkW`, then submit `payloadW` at time 1737718800. -/
def stReached : ContractState :=
  submit_risk_apply hostAccept 1737718800 (initContract_apply stDeploy pkW)
    payloadW sigW

/-! ## Helper lemmas: storage -/

theorem storeGet_storeSet_self (s : RiskStore) (a : Address) (v : RiskState) :
    storeGet (storeSet s a v) a = some v := by
  induction s with
  | nil => simp [storeSet, storeGet]
  | cons hd tl ih =>
    obtain ⟨k, w⟩ := hd
    by_cases h : k = a <;> simp [storeSet, storeGet, h, ih]

theorem storeGet_storeSet_ne (s : RiskStore) (a b : Address) (v : RiskState)
    (hab : a ≠ b) : storeGet (storeSet s a v) b = storeGet s b := by
  induction s with
  | nil => simp [storeSet, storeGet, hab]
  | cons hd tl ih =>
    obtain ⟨k, w⟩ := hd
    by_cases h : k = a
    · subst h
      simp [storeSet, storeGet, hab]
    · simp [storeSet, storeGet, h, ih]

/-! ## Helper lemmas: decimal rendering -/

theorem digitsRevLoop_eq_digits (n : Nat) : digitsRevLoop n = Nat.digits 10 n := by
  induction n using Nat.strong_induction_on with
  | _ n ih =>
    match n with
    | 0 => simp [digitsRevLoop]
    | m + 1 =>
      rw [digitsRevLoop, Nat.digits_def' (by norm_num : (1:ℕ) < 10) (Nat.succ_pos m),
        ih ((m + 1) / 10) (Nat.div_lt_self (Nat.succ_pos m) (by norm_num))]

theorem toNat_charOfDigit {d : Nat} (hd : d < 10) :
    (Char.ofNat (48 + d)).toNat = 48 + d := by
  interval_cases d <;> decide

theorem isDigitChar_charOfDigit {d : Nat} (hd : d < 10) :
    isDigitChar (Char.ofNat (48 + d)) = true := by
  interval_cases d <;> decide

theorem decStringVal_reverse_map (ds : List Nat) (h : ∀ d ∈ ds, d < 10) :
    decStringVal ((ds.map (fun d => Char.ofNat (48 + d))).reverse) =
      Nat.ofDigits 10 ds := by
  induction ds with
  | nil => simp [decStringVal, Nat.ofDigits_nil]
  | cons d tl ih =>
    have hd : d < 10 := h d (List.mem_cons_self d tl)
    have htl : ∀ x ∈ tl, x < 10 := fun x hx => h x (List.mem_cons_of_mem d hx)
    unfold decStringVal at ih ⊢
    rw [List.map_cons, List.reverse_cons, List.foldl_append, ih htl,
      Nat.ofDigits_cons]
    simp [toNat_charOfDigit hd]
    omega

theorem minimalDecimal_digitRender (n : Nat) :
    MinimalDecimal n
      (if n = 0 then "0"
       else String.mk (((digitsRevLoop n).map (fun d => Char.ofNat (48 + d))).reverse)) := by
  by_cases h0 : n = 0
  · subst h0
    refine ⟨by decide, by decide, by decide, fun _ => by simp, fun h => absurd rfl h⟩
  · rw [if_neg h0, digitsRevLoop_eq_digits]
    have hne : Nat.digits 10 n ≠ [] := Nat.digits_ne_nil_iff_ne_zero.mpr h0
    have hlt : ∀ d ∈ Nat.digits 10 n, d < 10 :=
      fun d hd => Nat.digits_lt_base (by norm_num) hd
    refine ⟨?_, ?_, ?_, fun h => absurd h h0, fun _ => ?_⟩
    · simpa using hne
    · intro c hc
      simp only [String.data] at hc
      rw [List.mem_reverse, List.mem_map] at hc
      obtain ⟨d, hd, rfl⟩ := hc
      exact isDigitChar_charOfDigit (hlt d hd)
    · show decStringVal _ = n
      rw [decStringVal_reverse_map _ hlt, Nat.ofDigits_digits]
    · show (((Nat.digits 10 n).map (fun d => Char.ofNat (48 + d))).reverse).head? ≠
        some (Char.ofNat 48)
      rw [List.head?_reverse, List.getLast?_map,
        List.getLast?_eq_getLast_of_ne_nil hne]
      have hmem : (Nat.digits 10 n).getLast hne ∈ Nat.digits 10 n :=
        List.getLast_mem hne
      have hdlt : (Nat.digits 10 n).getLast hne < 10 := hlt _ hmem
      have hdne : (Nat.digits 10 n).getLast hne ≠ 0 :=
        Nat.getLast_digit_ne_zero 10 h0
      intro hcontra
      have hchar : Char.ofNat (48 + (Nat.digits 10 n).getLast hne) = Char.ofNat 48 :=
        Option.some.inj hcontra
      have := congrArg Char.toNat hchar
      rw [toNat_charOfDigit hdlt] at this
      have h48 : (Char.ofNat 48).toNat = 48 := by decide
      omega

theorem minimalDecimal_append_u32 (n : Nat) :
    MinimalDecimal n (append_u32_as_bytes n) :=
  minimalDecimal_digitRender n

theorem minimalDecimal_append_u64 (n : Nat) :
    MinimalDecimal n (append_u64_as_bytes n) :=
  minimalDecimal_digitRender n

/-! ## Helper lemmas: address extraction from XDR -/

theorem range_filterMap_get_take (l : List Char) (n : Nat) (hn : n ≤ l.length) :
    (List.range n).filterMap (fun i => l.get? i) = l.take n := by
  induction n with
  | zero => simp
  | succ m ih =>
    rw [List.range_succ, List.filterMap_append, ih (Nat.le_of_succ_le hn),
      List.take_succ]
    have hm : m < l.length := hn
    simp [List.get?_eq_getElem?, List.getElem?_eq_getElem hm]

theorem sorobanStringXdr_get (s : String) (i : Nat) (hi : i < s.data.length) :
    (sorobanStringXdr s).get? (8 + i) = s.data.get? i := by
  unfold sorobanStringXdr
  rw [List.append_assoc, List.get?_append_right (by simp)]
  simp only [List.length_cons, List.length_nil]
  have h8 : 8 + i - (0 + 1 + 1 + 1 + 1 + 1 + 1 + 1 + 1) = i := by omega
  rw [h8, List.get?_append hi]

theorem append_address_as_string_eq (a : Address) :
    append_address_as_string a = a.str := by
  obtain ⟨s⟩ := a
  show String.mk ((List.range s.data.length).filterMap
      (fun i => (sorobanStringXdr s).get? (8 + i))) = s
  have hcongr : ∀ i ∈ List.range s.data.length,
      (sorobanStringXdr s).get? (8 + i) = s.data.get? i := by
    intro i hi
    rw [List.mem_range] at hi
    exact sorobanStringXdr_get s i hi
  rw [List.filterMap_congr hcongr,
    range_filterMap_get_take s.data s.data.length le_rfl, List.take_length]

/-! ## Helper lemmas: decision engine and state transitions -/

theorem calculate_decision_eq_some (s : Nat) (hs : s ≤ 100) :
    calculate_decision s =
      some (if s ≤ 49 then RiskDecision.Allow
            else if s ≤ 79 then RiskDecision.Limit 5000
            else RiskDecision.Freeze) := by
  unfold calculate_decision
  split_ifs <;> (first | rfl | omega)

theorem from_payload_eq_some (p : RiskPayload) (hs : p.risk_score ≤ 100) :
    ∃ rs, RiskState.from_payload p = some rs := by
  unfold RiskState.from_payload
  rw [calculate_decision_eq_some p.risk_score hs]
  exact ⟨_, rfl⟩

theorem from_payload_fields (p : RiskPayload) (rs : RiskState)
    (h : RiskState.from_payload p = some rs) :
    rs.risk_score = p.risk_score ∧ rs.last_updated = p.timestamp ∧
      calculate_decision rs.risk_score = some rs.decision := by
  unfold RiskState.from_payload at h
  cases hcd : calculate_decision p.risk_score with
  | none => rw [hcd] at h; exact absurd h (by simp)
  | some d =>
    rw [hcd] at h
    simp only [Option.map_some'] at h
    cases h
    exact ⟨rfl, rfl, hcd⟩

theorem initContract_apply_risk (st : ContractState) (pk : PublicKey) :
    (initContract_apply st pk).risk = st.risk := by
  unfold initContract_apply initContract
  cases st.oracle <;> rfl

theorem submit_risk_cases (host : HostVerify) (current_time : Nat)
    (st : ContractState) (payload : RiskPayload) (signature : Signature) :
    submit_risk_apply host current_time st payload signature = st ∨
    ∃ rs, RiskState.from_payload payload = some rs ∧
      submit_risk_apply host current_time st payload signature =
        { st with risk := storeSet st.risk payload.wallet rs } := by
  unfold submit_risk_apply submit_risk get_oracle_pubkey verify_signature
  cases st.oracle with
  | none => exact Or.inl rfl
  | some pk =>
    by_cases hv : host pk (serialize_canonical_json payload) signature = true
    · simp only [hv, if_true]
      by_cases hstale : current_time > payload.timestamp ∧
          current_time - payload.timestamp > 300
      · simp only [if_pos hstale]
        exact Or.inl rfl
      · simp only [if_neg hstale]
        by_cases hscore : payload.risk_score > 100
        · simp only [if_pos hscore]
          exact Or.inl rfl
        · simp only [if_neg hscore]
          obtain ⟨rs, hrs⟩ := from_payload_eq_some payload (by omega)
          rw [hrs]
          exact Or.inr ⟨rs, rfl, rfl⟩
    · simp only [Bool.not_eq_true] at hv
      simp only [hv]
      exact Or.inl rfl

/-! ## Claims -/

/-- C1: for every `RiskPayload` (score in the `u32` domain, timestamp in
the `u64` domain), the canonical encoder produces exactly the byte string
`\x7b"risk_score":S,"timestamp":T,"wallet":"W"\x7d` with the three keys in
that fixed lexicographic order and no whitespace, where `S` and `T` are
the minimal decimal ASCII renderings of score and timestamp (value 0
rendered as the single character `0`, no leading zeros, no sign) and `W`
is the wallet's canonical string form embedded with only surrounding
quotes. -/
theorem C1_serialize_canonical_json_exact (p : RiskPayload)
    (hs : p.risk_score < 4294967296) (ht : p.timestamp < 18446744073709551616) :
    serialize_canonical_json p =
      "\x7b\"risk_score\":" ++ append_u32_as_bytes p.risk_score
        ++ ",\"timestamp\":" ++ append_u64_as_bytes p.timestamp
        ++ ",\"wallet\":\"" ++ p.wallet.str ++ "\"\x7d" ∧
    MinimalDecimal p.risk_score (append_u32_as_bytes p.risk_score) ∧
    MinimalDecimal p.timestamp (append_u64_as_bytes p.timestamp) := by
  refine ⟨?_, minimalDecimal_append_u32 _, minimalDecimal_append_u64 _⟩
  unfold serialize_canonical_json
  rw [append_address_as_string_eq]

/-- Witness for C1 at the source's own test fixture (score 87,
timestamp 1737718800). -/
theorem C1_witness :
    serialize_canonical_json payloadW =
      "\x7b\"risk_score\":" ++ append_u32_as_bytes payloadW.risk_score
        ++ ",\"timestamp\":" ++ append_u64_as_bytes payloadW.timestamp
        ++ ",\"wallet\":\"" ++ payloadW.wallet.str ++ "\"\x7d" :=
  (C1_serialize_canonical_json_exact payloadW (by decide) (by decide)).1

/-- C3: the decision engine is total on scores 0-100, maps [0,49] to
Allow, [50,79] to Limit(5000) with the fixed cap 5000, [80,100] to
Freeze, and decision severity is non-decreasing in the score. -/
theorem C3_decision_engine :
    (∀ s, s ≤ 49 → calculate_decision s = some RiskDecision.Allow) ∧
    (∀ s, 50 ≤ s → s ≤ 79 → calculate_decision s = some (RiskDecision.Limit 5000)) ∧
    (∀ s, 80 ≤ s → s ≤ 100 → calculate_decision s = some RiskDecision.Freeze) ∧
    (∀ s t ds dt, s ≤ t →
      calculate_decision s = some ds → calculate_decision t = some dt →
      severity ds ≤ severity dt) := by
  refine ⟨?_, ?_, ?_, ?_⟩
  · intro s h
    unfold calculate_decision
    split_ifs <;> first | rfl | omega
  · intro s h1 h2
    unfold calculate_decision
    split_ifs <;> first | rfl | omega
  · intro s h1 h2
    unfold calculate_decision
    split_ifs <;> first | rfl | omega
  · intro s t ds dt hst hs ht
    unfold calculate_decision at hs ht
    split_ifs at hs ht
    all_goals
      first
      | exact Option.noConfusion hs
      | exact Option.noConfusion ht
      | (obtain rfl := Option.some.inj hs
         obtain rfl := Option.some.inj ht
         first | decide | exact absurd hst (by omega))

/-- Witness for C3: score 79 maps to Limit(5000). -/
theorem C3_witness :
    calculate_decision 79 = some (RiskDecision.Limit 5000) :=
  C3_decision_engine.2.1 79 (by decide) (by decide)

/-- C5: `initialize` is write-once: on an uninitialized state it stores
the given key; on any state whose slot holds a key (the one stored by the
first call) every later call fails with AlreadyInitialized and the stored
key is unchanged. -/
theorem C5_init_write_once :
    (∀ st pk, st.oracle = none →
      initContract st pk = Except.ok { st with oracle := some pk }) ∧
    (∀ st k pk', st.oracle = some k →
      initContract st pk' = Except.error SdkError.alreadyInitialized ∧
      (initContract_apply st pk').oracle = some k) := by
  constructor
  · intro st pk h
    unfold initContract
    rw [h]
  · intro st k pk' h
    unfold initContract_apply initContract
    rw [h]
    exact ⟨rfl, h⟩

/-- Witness for C5: re-initializing with a different key fails and leaves
the first key stored. -/
theorem C5_witness :
    initContract stInitOnly pkW2 = Except.error SdkError.alreadyInitialized ∧
    (initContract_apply stInitOnly pkW2).oracle = some pkW :=
  C5_init_write_once.2 stInitOnly pkW pkW2 rfl

/-- C7: for an identity with no stored RiskState, `check_permission`
returns Allow and `is_frozen` returns false (both are total pure reads of
the state: they return no modified state and cannot fail on absence). -/
theorem C7_default_allow (st : ContractState) (wallet : Address)
    (h : get_risk st wallet = none) :
    check_permission st wallet = RiskDecision.Allow ∧
      is_frozen st wallet = false := by
  constructor
  · simp [check_permission, h]
  · simp [is_frozen, check_permission, h]

/-- Witness for C7 on the deployment state, which stores no entry. -/
theorem C7_witness :
    check_permission stDeploy walletW = RiskDecision.Allow ∧
      is_frozen stDeploy walletW = false :=
  C7_default_allow stDeploy walletW rfl

/-- C8: for every state and identity, `is_frozen` returns true exactly
when `check_permission` returns Freeze. -/
theorem C8_is_frozen_iff_freeze (st : ContractState) (wallet : Address) :
    is_frozen st wallet = true ↔
      check_permission st wallet = RiskDecision.Freeze := by
  unfold is_frozen
  cases hcp : check_permission st wallet <;> simp

/-- C9: `submit_risk` does not compare the payload timestamp with the
stored `last_updated`: starting from a state whose entry for `walletW`
has `last_updated = 1000`, a validly signed payload with the older
timestamp 999 (inside the 300-second window at time 1000) succeeds and
overwrites the newer state, leaving `last_updated = 999 < 1000`. -/
theorem C9_last_updated_not_monotone :
    storeGet stWithEntry.risk walletW =
      some { risk_score := 87, last_updated := 1000,
             decision := RiskDecision.Freeze } ∧
    submit_risk hostAccept 1000 stWithEntry payloadOld sigW =
      Except.ok { oracle := some pkW,
                  risk := [(walletW, { risk_score := 10, last_updated := 999,
                                       decision := RiskDecision.Allow })] } ∧
    payloadOld.timestamp < 1000 ∧ 1000 - payloadOld.timestamp ≤ 300 :=
  ⟨rfl, rfl, by decide, by decide⟩

/-- C10: `verify_signature` never returns false: for every host behavior
and input it either returns true or the host Ed25519 primitive aborts the
call (modelled as the error outcome), so the declared bool's false branch
is unreachable. -/
theorem C10_verify_signature_never_false (host : HostVerify)
    (payload : RiskPayload) (signature : Signature) (public_key : PublicKey) :
    verify_signature host payload signature public_key = Except.ok true ∨
    verify_signature host payload signature public_key =
      Except.error SdkError.invalidSignature := by
  unfold verify_signature
  cases h : host public_key (serialize_canonical_json payload) signature <;>
    simp [h]

/-- C2: once signature verification has passed, `submit_risk` rejects the
payload as StalePayload exactly when `current_time > timestamp` and
`current_time - timestamp > 300`; every payload outside that case —
including the boundary age of exactly 300 seconds and every payload
timestamped in the future — passes the freshness check, and is accepted
outright when its score is valid (there is no future-skew check). -/
theorem C2_stale_window (host : HostVerify) (current_time : Nat)
    (st : ContractState) (payload : RiskPayload) (signature : Signature)
    (pk : PublicKey) (hpk : st.oracle = some pk)
    (hsig : host pk (serialize_canonical_json payload) signature = true) :
    (submit_risk host current_time st payload signature =
        Except.error SdkError.stalePayload ↔
      current_time > payload.timestamp ∧
        current_time - payload.timestamp > 300) ∧
    (¬(current_time > payload.timestamp ∧
        current_time - payload.timestamp > 300) →
      payload.risk_score ≤ 100 →
      ∃ st', submit_risk host current_time st payload signature =
        Except.ok st') := by
  unfold submit_risk get_oracle_pubkey verify_signature
  rw [hpk]
  simp only [hsig, if_true, Bool.not_true, not_true, if_false]
  constructor
  · constructor
    · intro h
      by_contra hn
      rw [if_neg hn] at h
      by_cases hscore : payload.risk_score > 100
      · rw [if_pos hscore] at h
        exact SdkError.noConfusion (Except.error.inj h)
      · rw [if_neg hscore] at h
        obtain ⟨rs, hrs⟩ := from_payload_eq_some payload (by omega)
        rw [hrs] at h
        exact Except.noConfusion h
    · intro hc
      rw [if_pos hc]
  · intro hn hsc
    rw [if_neg hn, if_neg (by omega : ¬ payload.risk_score > 100)]
    obtain ⟨rs, hrs⟩ := from_payload_eq_some payload hsc
    rw [hrs]
    exact ⟨_, rfl⟩

/-- Witness for C2: a payload aged exactly 301 seconds is rejected as
stale. -/
theorem C2_witness :
    submit_risk hostAccept 1000 stInitOnly payload699 sigW =
      Except.error SdkError.stalePayload :=
  (C2_stale_window hostAccept 1000 stInitOnly payload699 sigW pkW rfl
    rfl).1.mpr (by decide)

/-- C4: `submit_risk` is atomic: when any check fails the call aborts with
the corresponding error and the observable post-state (host rollback
semantics) is unchanged for every identity; a successful call implies
every check passed, and writes exactly the payload's wallet entry,
leaving the oracle key unchanged. -/
theorem C4_submit_risk_atomic (host : HostVerify) (current_time : Nat)
    (st : ContractState) (payload : RiskPayload) (signature : Signature) :
    (∀ e, submit_risk host current_time st payload signature = Except.error e →
      submit_risk_apply host current_time st payload signature = st) ∧
    (st.oracle = none →
      submit_risk host current_time st payload signature =
        Except.error SdkError.notInitialized) ∧
    (∀ pk, st.oracle = some pk →
      host pk (serialize_canonical_json payload) signature = false →
      submit_risk host current_time st payload signature =
        Except.error SdkError.invalidSignature) ∧
    (∀ pk, st.oracle = some pk →
      host pk (serialize_canonical_json payload) signature = true →
      current_time > payload.timestamp →
      current_time - payload.timestamp > 300 →
      submit_risk host current_time st payload signature =
        Except.error SdkError.stalePayload) ∧
    (∀ pk, st.oracle = some pk →
      host pk (serialize_canonical_json payload) signature = true →
      ¬(current_time > payload.timestamp ∧
          current_time - payload.timestamp > 300) →
      payload.risk_score > 100 →
      submit_risk host current_time st payload signature =
        Except.error SdkError.invalidScore) ∧
    (∀ st', submit_risk host current_time st payload signature =
        Except.ok st' →
      (∃ pk, st.oracle = some pk ∧
        host pk (serialize_canonical_json payload) signature = true) ∧
      ¬(current_time > payload.timestamp ∧
          current_time - payload.timestamp > 300) ∧
      payload.risk_score ≤ 100 ∧
      st'.oracle = st.oracle ∧
      (∃ rs, RiskState.from_payload payload = some rs ∧
        st'.risk = storeSet st.risk payload.wallet rs)) := by
  refine ⟨?_, ?_, ?_, ?_, ?_, ?_⟩
  · intro e h
    unfold submit_risk_apply
    rw [h]
  · intro h
    unfold submit_risk get_oracle_pubkey
    rw [h]
  · intro pk hpk hfail
    unfold submit_risk get_oracle_pubkey verify_signature
    rw [hpk]
    simp only [hfail, Bool.false_eq_true, if_false]
  · intro pk hpk hsig h1 h2
    unfold submit_risk get_oracle_pubkey verify_signature
    rw [hpk]
    simp only [hsig, if_true, Bool.not_true, not_true, if_false]
    rw [if_pos ⟨h1, h2⟩]
  · intro pk hpk hsig hfresh hscore
    unfold submit_risk get_oracle_pubkey verify_signature
    rw [hpk]
    simp only [hsig, if_true, Bool.not_true, not_true, if_false]
    rw [if_neg hfresh, if_pos hscore]
  · intro st' h
    unfold submit_risk get_oracle_pubkey verify_signature at h
    cases hpk : st.oracle with
    | none => rw [hpk] at h; exact Except.noConfusion h
    | some pk =>
      rw [hpk] at h
      by_cases hsig : host pk (serialize_canonical_json payload) signature = true
      · simp only [hsig, if_true, Bool.not_true, not_true, if_false] at h
        by_cases hfresh : current_time > payload.timestamp ∧
            current_time - payload.timestamp > 300
        · rw [if_pos hfresh] at h
          exact Except.noConfusion h
        · rw [if_neg hfresh] at h
          by_cases hscore : payload.risk_score > 100
          · rw [if_pos hscore] at h
            exact Except.noConfusion h
          · rw [if_neg hscore] at h
            obtain ⟨rs, hrs⟩ := from_payload_eq_some payload (by omega)
            rw [hrs] at h
            have hst' := Except.ok.inj h
            refine ⟨⟨pk, rfl, hsig⟩, hfresh, by omega, ?_, rs, hrs, ?_⟩
            · rw [← hst']
            · rw [← hst']
      · rw [Bool.not_eq_true] at hsig
        simp only [hsig, Bool.false_eq_true, if_false] at h
        exact Except.noConfusion h

/-- Witness for C4: calling `submit_risk` before initialization fails
with NotInitialized. -/
theorem C4_witness :
    submit_risk hostAccept 0 stDeploy payloadW sigW =
      Except.error SdkError.notInitialized :=
  (C4_submit_risk_atomic hostAccept 0 stDeploy payloadW sigW).2.1 rfl

/-- C6: in every reachable state, every stored `RiskState` has its
`decision` field equal to the decision engine applied to its stored
`risk_score`, and was written by some payload whose `timestamp` equals
its `last_updated`. -/
theorem C6_stored_state_consistent (st : ContractState) (hst : Reachable st)
    (a : Address) (rs : RiskState)
    (hget : storeGet st.risk a = some rs) :
    calculate_decision rs.risk_score = some rs.decision ∧
    ∃ p : RiskPayload, RiskState.from_payload p = some rs ∧
      rs.last_updated = p.timestamp := by
  revert hget
  induction hst with
  | deploy =>
    intro hget
    exact Option.noConfusion hget
  | step_init st pk hr ih =>
    intro hget
    rw [initContract_apply_risk] at hget
    exact ih hget
  | step_submit host current_time st payload signature hr ih =>
    intro hget
    rcases submit_risk_cases host current_time st payload signature with
      heq | ⟨rsp, hrsp, heq⟩
    · rw [heq] at hget
      exact ih hget
    · rw [heq] at hget
      by_cases ha : payload.wallet = a
      · subst ha
        rw [storeGet_storeSet_self] at hget
        obtain rfl := Option.some.inj hget
        obtain ⟨h1, h2, h3⟩ := from_payload_fields payload rsp hrsp
        exact ⟨h3, payload, hrsp, h2⟩
      · rw [storeGet_storeSet_ne st.risk payload.wallet a rsp ha] at hget
        exact ih hget

/-- Witness for C6 on the concrete reachable state `stReached`, whose
stored entry for `walletW` is `rsW` (score 87, decision Freeze). -/
theorem C6_witness :
    calculate_decision rsW.risk_score = some rsW.decision :=
  (C6_stored_state_consistent stReached
    (Reachable.step_submit hostAccept 1737718800
      (initContract_apply stDeploy pkW) payloadW sigW
      (Reachable.step_init stDeploy pkW Reachable.deploy))
    walletW rsW rfl).1

end Sentinel
